import Mathlib

/-!
Shallow embedding of the reindeer entity store's relation/integrity engine
(src/entity.rs, src/relation/mod.rs, src/relation/descriptor.rs).

Keys are modelled as byte lists (`List Nat`, each entry a byte value).
The sled database is modelled as three finite association maps:
record trees (keyspace name to ordered key/value entries, the record
payload abstracted to a `Nat`), relation-descriptor trees (the
reserved `__$rel_<name>` keyspaces, indexed here by the entity keyspace
name since the renaming is injective), and the family registry (the
reserved `__$family_rel` keyspace).  bincode serialization is the
identity in the model: descriptors are stored as structured values.
Engine-level (I/O) failures are out of scope, so tree reads and writes
are total; the fallible layer (`Result` in the source) is kept for the
planner, which is the source of integrity errors.
-/

namespace Reindeer

abbrev Bytes := List Nat

/-- DeletionBehaviour from src/relation/mod.rs. -/
inductive DeletionBehaviour where
  | Error
  | BreakLink
  | Cascade
deriving DecidableEq, Repr

/-- RelationDescriptor from src/relation/descriptor.rs: one outgoing edge. -/
structure RelationDescriptor where
  key : Bytes
  deletion_behaviour : DeletionBehaviour
  name : Option String
deriving DecidableEq, Repr

/-- EntityRelations from src/relation/descriptor.rs: the per-record relation
descriptor, a map from peer keyspace name to the list of edges into it.
The Rust HashMap is modelled as an association list in insertion order. -/
structure EntityRelations where
  related_entities : List (String × List RelationDescriptor)
deriving DecidableEq, Repr

/-- FamilyDescriptor from src/relation/descriptor.rs. -/
structure FamilyDescriptor where
  tree_name : String
  sibling_trees : List (String × DeletionBehaviour)
  child_trees : List (String × DeletionBehaviour)
deriving DecidableEq, Repr

/-- ErrorKind from src/error.rs. -/
inductive ErrorKind where
  | SledError
  | SerializationError
  | IOError
  | IntegrityError
  | NotFound
  | UnregisteredEntity
deriving DecidableEq, Repr

/-- Error from src/error.rs (kind plus message). -/
structure StoreError where
  kind : ErrorKind
  message : String
deriving DecidableEq, Repr

/-- Association-list get, mirroring HashMap::get / sled point read. -/
def alistGet {κ ν : Type} [DecidableEq κ] : List (κ × ν) → κ → Option ν
  | [], _ => none
  | (k0, v0) :: rest, k => if k0 = k then some v0 else alistGet rest k

/-- Association-list insert-or-overwrite, mirroring HashMap::insert / sled insert. -/
def alistSet {κ ν : Type} [DecidableEq κ] : List (κ × ν) → κ → ν → List (κ × ν)
  | [], k, v => [(k, v)]
  | (k0, v0) :: rest, k, v =>
      if k0 = k then (k, v) :: rest else (k0, v0) :: alistSet rest k v

/-- Association-list delete, mirroring sled Tree::remove. -/
def alistRemove {κ ν : Type} [DecidableEq κ] : List (κ × ν) → κ → List (κ × ν)
  | [], _ => []
  | (k0, v0) :: rest, k =>
      if k0 = k then alistRemove rest k else (k0, v0) :: alistRemove rest k

/-- u8::to_ascii_lowercase on one byte. -/
def asciiLowerByte (b : Nat) : Nat := if 65 ≤ b ∧ b ≤ 90 then b + 32 else b

/-- Vec of bytes to_ascii_lowercase, used by remove_related_by_key_and_tree_name. -/
def toAsciiLowercase (l : Bytes) : Bytes := l.map asciiLowerByte

/-- Byte-lexicographic order on keys, the sled tree order. -/
def bytesLe : Bytes → Bytes → Bool
  | [], _ => true
  | _ :: _, [] => false
  | a :: xs, b :: ys => if a < b then true else if b < a then false else bytesLe xs ys

/-- Big-endian 4-byte encoding of a u32 (AsBytes for u32 in src/entity.rs). -/
def be32 (n : Nat) : Bytes :=
  [n / 16777216 % 256, n / 65536 % 256, n / 256 % 256, n % 256]

/-- u32::from_be_bytes on a 4-byte slice. -/
def u32FromBe (l : Bytes) : Nat := l.foldl (fun a b => a * 256 + b) 0

/-- The last four bytes of a key: key.iter().rev().take(4).rev() in save_child. -/
def lastFour (l : Bytes) : Bytes := l.drop (l.length - 4)

/-- EntityRelations::add_related_by_key (src/relation/descriptor.rs:50).
The new edge is compared by full structural equality (the derived PartialEq
of RelationDescriptor) and pushed only when no identical entry exists. -/
def EntityRelations.addRelatedByKey (er : EntityRelations) (tree_name : String)
    (key : Bytes) (behaviour : DeletionBehaviour) (name : Option String) :
    EntityRelations :=
  match alistGet er.related_entities tree_name with
  | some v =>
      let rd : RelationDescriptor := ⟨key, behaviour, name⟩
      if rd ∈ v then er
      else ⟨alistSet er.related_entities tree_name (v ++ [rd])⟩
  | none => ⟨er.related_entities ++ [(tree_name, [⟨key, behaviour, name⟩])]⟩

/-- EntityRelations::remove_related_by_key_and_tree_name
(src/relation/descriptor.rs:77): retains edges whose ASCII-lowercased key
differs from the ASCII-lowercased argument key; the edge name is ignored. -/
def EntityRelations.removeRelatedByKeyAndTreeName (er : EntityRelations)
    (tree : String) (e : Bytes) : EntityRelations :=
  match alistGet er.related_entities tree with
  | some v =>
      ⟨alistSet er.related_entities tree
        (v.filter (fun rd => toAsciiLowercase rd.key != toAsciiLowercase e))⟩
  | none => er

/-- The empty relation descriptor (EntityRelations::default()). -/
def EntityRelations.empty : EntityRelations := ⟨[]⟩

/-- The whole store: record trees, relation-descriptor trees (`__$rel_<T>`,
indexed by `T`), and the family registry (`__$family_rel`). -/
structure DB where
  records : List (String × List (Bytes × Nat))
  rels : List (String × List (Bytes × EntityRelations))
  families : List (String × FamilyDescriptor)
deriving DecidableEq, Repr

/-- Contents of one record keyspace (empty when the tree was never written). -/
def recordsTree (db : DB) (tree : String) : List (Bytes × Nat) :=
  (alistGet db.records tree).getD []

/-- Point read of a record (Tree::get on the record keyspace). -/
def recLookup (db : DB) (tree : String) (key : Bytes) : Option Nat :=
  alistGet (recordsTree db tree) key

/-- Record write (Tree::insert on the record keyspace). -/
def recInsert (db : DB) (tree : String) (key : Bytes) (v : Nat) : DB :=
  { db with records := alistSet db.records tree (alistSet (recordsTree db tree) key v) }

/-- Record delete (Tree::remove / one batched removal on the record keyspace). -/
def recRemove (db : DB) (tree : String) (key : Bytes) : DB :=
  { db with records := alistSet db.records tree (alistRemove (recordsTree db tree) key) }

/-- Tree::contains_key on a record keyspace. -/
def recContains (db : DB) (tree : String) (key : Bytes) : Bool :=
  (recLookup db tree key).isSome

/-- Contents of one relation-descriptor keyspace. -/
def relsTree (db : DB) (tree : String) : List (Bytes × EntityRelations) :=
  (alistGet db.rels tree).getD []

/-- Point read in `__$rel_<tree>` (present entry only; absence is `none`). -/
def relsLookup (db : DB) (tree : String) (key : Bytes) : Option EntityRelations :=
  alistGet (relsTree db tree) key

/-- Write in `__$rel_<tree>` (Relation::save_descriptor_with_key_and_tree_name). -/
def relsSave (db : DB) (tree : String) (key : Bytes) (er : EntityRelations) : DB :=
  { db with rels := alistSet db.rels tree (alistSet (relsTree db tree) key er) }

/-- Delete in `__$rel_<tree>`. -/
def relsRemove (db : DB) (tree : String) (key : Bytes) : DB :=
  { db with rels := alistSet db.rels tree (alistRemove (relsTree db tree) key) }

/-- FamilyDescriptor::get (a point read of `__$family_rel`). -/
def famLookup (db : DB) (tree : String) : Option FamilyDescriptor :=
  alistGet db.families tree

/-- Relation::get_descriptor_with_key_and_tree_name (src/relation/mod.rs:297):
an absent entry deserializes to the default (empty) descriptor. -/
def getDescriptorWithKeyAndTreeName (db : DB) (tree : String) (key : Bytes) :
    EntityRelations :=
  (relsLookup db tree key).getD EntityRelations.empty

/-- Relation::create_link (src/relation/mod.rs:351), at the byte/tree-name
level: load the first record's descriptor, add the edge to the second, save. -/
def createLink (db : DB) (tree1 : String) (key1 : Bytes) (tree2 : String)
    (key2 : Bytes) (behaviour : DeletionBehaviour) (name : Option String) : DB :=
  let d := getDescriptorWithKeyAndTreeName db tree1 key1
  relsSave db tree1 key1 (d.addRelatedByKey tree2 key2 behaviour name)

/-- Relation::create (src/relation/mod.rs:14): installs both directed edges,
each with its caller-supplied policy and the shared optional name. -/
def createRelation (db : DB) (tree1 : String) (key1 : Bytes) (tree2 : String)
    (key2 : Bytes) (p1 p2 : DeletionBehaviour) (name : Option String) : DB :=
  let db1 := createLink db tree1 key1 tree2 key2 p1 name
  createLink db1 tree2 key2 tree1 key1 p2 name

/-- Relation::remove_link_with_keys_and_tree_names (src/relation/mod.rs:375). -/
def removeLinkWithKeysAndTreeNames (db : DB) (tree1 : String) (key1 : Bytes)
    (tree2 : String) (key2 : Bytes) : DB :=
  let d := getDescriptorWithKeyAndTreeName db tree1 key1
  relsSave db tree1 key1 (d.removeRelatedByKeyAndTreeName tree2 key2)

/-- Relation::remove / remove_by_keys (src/relation/mod.rs:28, 52):
severs the link in both directions. -/
def removeRelationByKeys (db : DB) (tree1 : String) (key1 : Bytes)
    (tree2 : String) (key2 : Bytes) : DB :=
  let db1 := removeLinkWithKeysAndTreeNames db tree1 key1 tree2 key2
  removeLinkWithKeysAndTreeNames db1 tree2 key2 tree1 key1

/-- Relation::remove_entity_entry (src/relation/mod.rs:34): removes the mirror
edge from every peer's descriptor, then deletes this record's own entry. -/
def removeEntityEntry (db : DB) (tree : String) (key : Bytes) : DB :=
  let d := getDescriptorWithKeyAndTreeName db tree key
  let db1 := d.related_entities.foldl
    (fun acc p => p.2.foldl
      (fun acc2 r => removeLinkWithKeysAndTreeNames acc2 p.1 r.key tree key) acc) db
  relsRemove db1 tree key

/-- Keys returned by Relation::get (src/relation/mod.rs:228): the peer keys of
the edges into `tree2`, keeping only those whose record exists
(get_each_u8 silently skips missing keys). -/
def getRelatedKeys (db : DB) (tree1 : String) (key1 : Bytes) (tree2 : String) :
    List Bytes :=
  match alistGet (getDescriptorWithKeyAndTreeName db tree1 key1).related_entities tree2 with
  | some related_keys =>
      (related_keys.map (·.key)).filter (fun k => (recLookup db tree2 k).isSome)
  | none => []

/-- Relation::get_one_with_name (src/relation/mod.rs:276): when some edge into
`tree2` carries the requested name, the record fetched is the one at index 0
of the peer list, not the matched edge's peer. -/
def getOneWithName (db : DB) (tree1 : String) (key1 : Bytes) (tree2 : String)
    (name : String) : Option Nat :=
  match alistGet (getDescriptorWithKeyAndTreeName db tree1 key1).related_entities tree2 with
  | some related_keys =>
      match related_keys.find?
          (fun rd => match rd.name with | some n => n == name | none => false) with
      | some _ =>
          match related_keys.head? with
          | some rd0 => recLookup db tree2 rd0.key
          | none => none
      | none => none
  | none => none

/-- Insertion into an ascending key list, used to present tree iteration order. -/
def insertKeySorted (k : Bytes) : List Bytes → List Bytes
  | [] => [k]
  | k0 :: rest => if bytesLe k k0 then k :: k0 :: rest else k0 :: insertKeySorted k rest

/-- Keys of Tree::scan_prefix over a record keyspace, in ascending byte order. -/
def scanPrefixKeys (db : DB) (tree : String) (pfx : Bytes) : List Bytes :=
  (((recordsTree db tree).map (·.1)).filter (fun k => pfx.isPrefixOf k)).foldr
    insertKeySorted []

/-- Tree::last on a record keyspace: the entry with the greatest key. -/
def treeLast : List (Bytes × Nat) → Option (Bytes × Nat)
  | [] => none
  | p :: rest =>
      match treeLast rest with
      | none => some p
      | some q => some (if bytesLe p.1 q.1 then q else p)

/-- The per-bucket free-edge loop of Relation::can_be_deleted
(src/relation/mod.rs:101-136): `recurse` stands for the recursive call at the
next fuel level.  An Error edge whose peer is already scheduled is skipped; an
unscheduled one aborts; a Cascade edge recurses with the current node appended
to the visited list and then records the peer as removable; BreakLink edges
are left for the executor. -/
def checkFreeEdges
    (recurse : String → Bytes → List (String × Bytes) → EntityRelations →
      Except StoreError EntityRelations)
    (tree : String) (key : Bytes) (checked : List (String × Bytes))
    (other_tree : String) :
    List RelationDescriptor → EntityRelations → Except StoreError EntityRelations
  | [], removable => .ok removable
  | rd :: rest, removable =>
      match rd.deletion_behaviour with
      | .Error =>
          if (other_tree, rd.key) ∈ checked then
            checkFreeEdges recurse tree key checked other_tree rest removable
          else
            .error ⟨.IntegrityError, "Constrained related entity exists in " ++ other_tree⟩
      | .Cascade =>
          match recurse other_tree rd.key (checked ++ [(tree, key)]) removable with
          | .error e => .error e
          | .ok r1 =>
              checkFreeEdges recurse tree key checked other_tree rest
                (r1.addRelatedByKey other_tree rd.key .Cascade none)
      | .BreakLink => checkFreeEdges recurse tree key checked other_tree rest removable

/-- The outer loop over the descriptor's buckets in Relation::can_be_deleted. -/
def checkFreeBuckets
    (recurse : String → Bytes → List (String × Bytes) → EntityRelations →
      Except StoreError EntityRelations)
    (tree : String) (key : Bytes) (checked : List (String × Bytes)) :
    List (String × List RelationDescriptor) → EntityRelations →
    Except StoreError EntityRelations
  | [], removable => .ok removable
  | (tn, es) :: rest, removable =>
      match checkFreeEdges recurse tree key checked tn es removable with
      | .error e => .error e
      | .ok r1 => checkFreeBuckets recurse tree key checked rest r1

/-- The sibling-tree loop of Relation::can_be_deleted (src/relation/mod.rs:144). -/
def checkSiblings
    (recurse : String → Bytes → List (String × Bytes) → EntityRelations →
      Except StoreError EntityRelations)
    (db : DB) (tree : String) (key : Bytes) (checked : List (String × Bytes)) :
    List (String × DeletionBehaviour) → EntityRelations →
    Except StoreError EntityRelations
  | [], removable => .ok removable
  | (tn, b) :: rest, removable =>
      match b with
      | .Error =>
          if (tn, key) ∈ checked then
            checkSiblings recurse db tree key checked rest removable
          else if recContains db tn key then
            .error ⟨.IntegrityError, "Constrained sibling entity exists in " ++ tn⟩
          else
            checkSiblings recurse db tree key checked rest removable
      | .Cascade =>
          match recurse tn key (checked ++ [(tree, key)]) removable with
          | .error e => .error e
          | .ok r1 =>
              checkSiblings recurse db tree key checked rest
                (r1.addRelatedByKey tn key .Cascade none)
      | .BreakLink => checkSiblings recurse db tree key checked rest removable

/-- The per-child-key loop inside the Cascade arm of the child-tree pass. -/
def checkChildKeys
    (recurse : String → Bytes → List (String × Bytes) → EntityRelations →
      Except StoreError EntityRelations)
    (tn : String) (newChecked : List (String × Bytes)) :
    List Bytes → EntityRelations → Except StoreError EntityRelations
  | [], removable => .ok removable
  | ck :: rest, removable =>
      match recurse tn ck newChecked removable with
      | .error e => .error e
      | .ok r1 =>
          checkChildKeys recurse tn newChecked rest
            (r1.addRelatedByKey tn ck .Cascade none)

/-- The child-tree loop of Relation::can_be_deleted (src/relation/mod.rs:181). -/
def checkChildren
    (recurse : String → Bytes → List (String × Bytes) → EntityRelations →
      Except StoreError EntityRelations)
    (db : DB) (tree : String) (key : Bytes) (checked : List (String × Bytes)) :
    List (String × DeletionBehaviour) → EntityRelations →
    Except StoreError EntityRelations
  | [], removable => .ok removable
  | (tn, b) :: rest, removable =>
      match b with
      | .Error =>
          if (scanPrefixKeys db tn key).length > 0 then
            .error ⟨.IntegrityError, "Constrained child entity exists in " ++ tn⟩
          else
            checkChildren recurse db tree key checked rest removable
      | .Cascade =>
          match checkChildKeys recurse tn (checked ++ [(tree, key)])
              (scanPrefixKeys db tn key) removable with
          | .error e => .error e
          | .ok r1 => checkChildren recurse db tree key checked rest r1
      | .BreakLink => checkChildren recurse db tree key checked rest removable

/-- Relation::can_be_deleted (src/relation/mod.rs:85): the recursive deletion
planner.  The Rust recursion terminates because the visited list grows with
pairwise-distinct nodes of a finite store; the embedding makes that explicit
with a fuel argument, and the theorems below hold for every sufficient fuel.
Note the order of the checks: the free-edge pass runs before the family
descriptor is tested for absence. -/
def canBeDeleted :
    Nat → String → Bytes → List (String × Bytes) → EntityRelations → DB →
    Except StoreError EntityRelations
  | 0, _, _, _, _, _ => .error ⟨.IOError, "recursion fuel exhausted"⟩
  | fuel + 1, tree, key, checked, removable, db =>
      if (tree, key) ∈ checked then .ok removable
      else
        let d := getDescriptorWithKeyAndTreeName db tree key
        match checkFreeBuckets (fun t k c r => canBeDeleted fuel t k c r db)
            tree key checked d.related_entities removable with
        | .error e => .error e
        | .ok r1 =>
            match famLookup db tree with
            | none =>
                .error ⟨.UnregisteredEntity, "Trying to use unregistered entity " ++ tree⟩
            | some fd =>
                match checkSiblings (fun t k c r => canBeDeleted fuel t k c r db)
                    db tree key checked fd.sibling_trees r1 with
                | .error e => .error e
                | .ok r2 =>
                    checkChildren (fun t k c r => canBeDeleted fuel t k c r db)
                      db tree key checked fd.child_trees r2

/-- Entity::pre_remove (src/entity.rs:453): plan, batch-remove the planned
records, then prune the relation-descriptor entry of the starting node only. -/
def preRemove (fuel : Nat) (tree : String) (key : Bytes) (db : DB) :
    Except StoreError DB :=
  match canBeDeleted fuel tree key [] EntityRelations.empty db with
  | .error e => .error e
  | .ok removable =>
      let db1 := removable.related_entities.foldl
        (fun acc p => p.2.foldl (fun acc2 rd => recRemove acc2 p.1 rd.key) acc) db
      .ok (removeEntityEntry db1 tree key)

/-- Entity::remove_from_u8_array (src/entity.rs:491): pre_remove then delete
the record itself.  The planner runs to completion before any write, so an
error leaves the store untouched. -/
def removeFromU8Array (fuel : Nat) (tree : String) (key : Bytes) (db : DB) :
    Except StoreError DB :=
  match preRemove fuel tree key db with
  | .error e => .error e
  | .ok db1 => .ok (recRemove db1 tree key)

/-- Entity::save_child (src/entity.rs:679): the new tail is the u32 read from
the last four bytes of the byte-wise greatest key in the whole child keyspace,
plus one, or zero when the keyspace is empty; the child is saved under the
parent key concatenated with the big-endian tail.  Returns the store and the
new key. -/
def saveChild (db : DB) (childTree : String) (parentKey : Bytes) (v : Nat) :
    DB × Bytes :=
  let increment :=
    match treeLast (recordsTree db childTree) with
    | some (k, _) => u32FromBe (lastFour k) + 1
    | none => 0
  let key := parentKey ++ be32 increment
  (recInsert db childTree key v, key)

/-- Entity::adopt_child (src/entity.rs:713): remove the child under its old
key, then save_child under the new parent.  `v` is the child's record value,
carried across the re-keying by the caller's `&mut child`. -/
def adoptChild (fuel : Nat) (db : DB) (parentKey : Bytes) (childTree : String)
    (childKey : Bytes) (v : Nat) : Except StoreError (DB × Bytes) :=
  match removeFromU8Array fuel childTree childKey db with
  | .error e => .error e
  | .ok db1 => .ok (saveChild db1 childTree parentKey v)

/-! Association-list and store lemmas shared by the claim proofs. -/

theorem alistGet_alistSet_same {κ ν : Type} [DecidableEq κ] (l : List (κ × ν)) (k : κ) (v : ν) :
    alistGet (alistSet l k v) k = some v := by
  induction l with
  | nil => simp [alistGet, alistSet]
  | cons p rest ih =>
      by_cases h : p.1 = k
      · simp [alistSet, alistGet, h]
      · simp [alistSet, alistGet, h, ih]

theorem alistGet_alistSet_ne {κ ν : Type} [DecidableEq κ] (l : List (κ × ν)) (k k' : κ) (v : ν)
    (h : k' ≠ k) : alistGet (alistSet l k v) k' = alistGet l k' := by
  induction l with
  | nil => simp [alistGet, alistSet, Ne.symm h]
  | cons p rest ih =>
      by_cases h1 : p.1 = k
      · simp [alistSet, alistGet, h1, Ne.symm h]
      · by_cases h2 : p.1 = k'
        · simp [alistSet, alistGet, h1, h2, h]
        · simp [alistSet, alistGet, h1, h2, ih]

theorem alistGet_alistRemove_same {κ ν : Type} [DecidableEq κ] (l : List (κ × ν)) (k : κ) :
    alistGet (alistRemove l k) k = none := by
  induction l with
  | nil => simp [alistRemove, alistGet]
  | cons p rest ih =>
      by_cases h : p.1 = k
      · simp [alistRemove, alistGet, h, ih]
      · simp [alistRemove, alistGet, h, ih]

theorem relsLookup_relsSave_same (db : DB) (tree : String) (key : Bytes)
    (er : EntityRelations) : relsLookup (relsSave db tree key er) tree key = some er := by
  simp [relsLookup, relsSave, relsTree, alistGet_alistSet_same]

theorem relsLookup_relsSave_ne (db : DB) (tree tree' : String) (key key' : Bytes)
    (er : EntityRelations) (h : ¬(tree' = tree ∧ key' = key)) :
    relsLookup (relsSave db tree key er) tree' key' = relsLookup db tree' key' := by
  by_cases ht : tree' = tree
  · subst ht
    have hk : key' ≠ key := fun hk => h ⟨rfl, hk⟩
    simp [relsLookup, relsSave, relsTree, alistGet_alistSet_same, alistGet_alistSet_ne _ _ _ _ hk]
  · simp [relsLookup, relsSave, relsTree, alistGet_alistSet_ne _ _ _ _ ht]

theorem relsLookup_relsRemove_same (db : DB) (tree : String) (key : Bytes) :
    relsLookup (relsRemove db tree key) tree key = none := by
  simp [relsLookup, relsRemove, relsTree, alistGet_alistSet_same, alistGet_alistRemove_same]

theorem relsLookup_recRemove (db : DB) (t : String) (k : Bytes) (t' : String) (k' : Bytes) :
    relsLookup (recRemove db t k) t' k' = relsLookup db t' k' := rfl

theorem recLookup_relsSave (db : DB) (t : String) (k : Bytes) (er : EntityRelations)
    (t' : String) (k' : Bytes) : recLookup (relsSave db t k er) t' k' = recLookup db t' k' := rfl

theorem recLookup_recRemove_same (db : DB) (tree : String) (key : Bytes) :
    recLookup (recRemove db tree key) tree key = none := by
  simp [recLookup, recRemove, recordsTree, alistGet_alistSet_same, alistGet_alistRemove_same]

theorem relsLookup_removeEntityEntry_self (db : DB) (tree : String) (key : Bytes) :
    relsLookup (removeEntityEntry db tree key) tree key = none := by
  simp [removeEntityEntry, relsLookup_relsRemove_same]

/-! Concrete stores used as counterexamples, failing inputs and witnesses. -/

/-- A child record x = ("p1", 2) in `child_entity_1` with a BreakLink free
relation to z = 7 in `entity_3` (mirror edge in place), the child type
registered with an empty family.  This is the S6 setup of the specification. -/
def dbAdopt : DB :=
  ⟨[("child_entity_1", [([112, 49, 0, 0, 0, 2], 0)]), ("entity_3", [([0, 0, 0, 7], 0)])],
   [("child_entity_1",
     [([112, 49, 0, 0, 0, 2], ⟨[("entity_3", [⟨[0, 0, 0, 7], .BreakLink, none⟩])]⟩)]),
    ("entity_3",
     [([0, 0, 0, 7], ⟨[("child_entity_1", [⟨[112, 49, 0, 0, 0, 2], .BreakLink, none⟩])]⟩)])],
   [("child_entity_1", ⟨"child_entity_1", [], []⟩)]⟩

/-- The store produced by adopt_child on `dbAdopt` with new parent "p2". -/
def dbAdoptAfter : DB :=
  ⟨[("child_entity_1", [([112, 50, 0, 0, 0, 0], 0)]), ("entity_3", [([0, 0, 0, 7], 0)])],
   [("child_entity_1", []),
    ("entity_3", [([0, 0, 0, 7], ⟨[("child_entity_1", [])]⟩)])],
   [("child_entity_1", ⟨"child_entity_1", [], []⟩)]⟩

/-- Claim C1: adopt_child is claimed to re-key the child and preserve its
outgoing free relation — afterwards get_related on the child should still
return the peer, and the peer's descriptor should reference the child under
its new key.  The code (src/entity.rs:713) instead runs remove followed by
save_child: remove's pre_remove deletes the child's relation descriptor and
strips the mirror edge from the peer, and save_child does not re-create
either.  On the S6 store the adoption succeeds and re-keys x to ("p2", 0),
but both get_related directions come back empty, while before the call the
child's related keys were exactly the peer.  The claim is right about the
intended behaviour (the repository's own adoption-with-relations test and
the specification demand preservation) and the code loses the edges. -/
theorem adopt_child_loses_relations :
    adoptChild 5 dbAdopt [112, 50] "child_entity_1" [112, 49, 0, 0, 0, 2] 0 =
      .ok (dbAdoptAfter, [112, 50, 0, 0, 0, 0]) ∧
    getRelatedKeys dbAdopt "child_entity_1" [112, 49, 0, 0, 0, 2] "entity_3" =
      [[0, 0, 0, 7]] ∧
    getRelatedKeys dbAdoptAfter "child_entity_1" [112, 50, 0, 0, 0, 0] "entity_3" = [] ∧
    getRelatedKeys dbAdoptAfter "entity_3" [0, 0, 0, 7] "child_entity_1" = [] :=
  ⟨rfl, rfl, rfl, rfl⟩

/-- A record a = [1] in "ta" with a Cascade edge to b = [2] in "tb"; b carries
the Error mirror edge back to a and a BreakLink relation to c = [3] in "tc"
(mirror in place); "ta" and "tb" registered with empty families. -/
def dbCascade : DB :=
  ⟨[("ta", [([1], 0)]), ("tb", [([2], 0)]), ("tc", [([3], 0)])],
   [("ta", [([1], ⟨[("tb", [⟨[2], .Cascade, none⟩])]⟩)]),
    ("tb", [([2], ⟨[("ta", [⟨[1], .Error, none⟩]), ("tc", [⟨[3], .BreakLink, none⟩])]⟩)]),
    ("tc", [([3], ⟨[("tb", [⟨[2], .BreakLink, none⟩])]⟩)])],
   [("ta", ⟨"ta", [], []⟩), ("tb", ⟨"tb", [], []⟩)]⟩

/-- The store produced by remove("ta", [1]) on `dbCascade`. -/
def dbCascadeAfter : DB :=
  ⟨[("ta", []), ("tb", []), ("tc", [([3], 0)])],
   [("ta", []),
    ("tb", [([2], ⟨[("ta", []), ("tc", [⟨[3], .BreakLink, none⟩])]⟩)]),
    ("tc", [([3], ⟨[("tb", [⟨[2], .BreakLink, none⟩])]⟩)])],
   [("ta", ⟨"ta", [], []⟩), ("tb", ⟨"tb", [], []⟩)]⟩

/-- Claim C2 counterexample: remove("ta", [1]) on `dbCascade` succeeds and the
cascade plan contains b = ("tb", [2]), but afterwards b's relation-descriptor
entry still exists in the `__$rel_tb` keyspace even though b's record is
gone, and c's descriptor still holds an edge whose key [2] no longer exists
in "tb".  pre_remove (src/entity.rs:453) calls remove_entity_entry only for
the starting node, so the claimed pruning of every planned entity's
descriptor entry does not happen. -/
theorem remove_cascade_descriptor_dangling :
    removeFromU8Array 5 "ta" [1] dbCascade = .ok dbCascadeAfter ∧
    recLookup dbCascadeAfter "tb" [2] = none ∧
    relsLookup dbCascadeAfter "tb" [2] =
      some ⟨[("ta", []), ("tc", [⟨[3], .BreakLink, none⟩])]⟩ ∧
    alistGet (getDescriptorWithKeyAndTreeName dbCascadeAfter "tc" [3]).related_entities
      "tb" = some [⟨[2], .BreakLink, none⟩] :=
  ⟨rfl, rfl, rfl, rfl⟩

/-- Claim C2 as amended: after every successful remove(T0, k0), the
relation-descriptor entry of the starting node is deleted from its
`__$rel_<T0>` keyspace and the starting record is deleted; descriptor entries
of the other entities in the cascade plan are not pruned (only mirror edges
pointing at the starting node are removed from them), so they may keep
referring to removed record keys. -/
theorem remove_prunes_start_descriptor (fuel : Nat) (tree : String) (key : Bytes)
    (db db2 : DB) (h : removeFromU8Array fuel tree key db = .ok db2) :
    relsLookup db2 tree key = none ∧ recLookup db2 tree key = none := by
  unfold removeFromU8Array preRemove at h
  cases hc : canBeDeleted fuel tree key [] EntityRelations.empty db with
  | error e => rw [hc] at h; exact absurd h (by simp)
  | ok removable =>
      rw [hc] at h
      simp only [Except.ok.injEq] at h
      subst h
      exact ⟨by rw [relsLookup_recRemove, relsLookup_removeEntityEntry_self],
             recLookup_recRemove_same _ _ _⟩

/-- Witness for `remove_prunes_start_descriptor` at the `dbCascade` run. -/
theorem remove_prunes_start_descriptor_witness :
    relsLookup dbCascadeAfter "ta" [1] = none ∧ recLookup dbCascadeAfter "ta" [1] = none :=
  remove_prunes_start_descriptor 5 "ta" [1] dbCascade dbCascadeAfter rfl

/-- Claim C6 counterexample: adding an edge with the same peer key and the
same name but a different policy does not overwrite — Vec::contains in
add_related_by_key (src/relation/descriptor.rs:50) compares the whole
descriptor including the policy, so a second entry is pushed and the old
policy survives alongside the new one. -/
theorem add_related_same_key_name_duplicates :
    (EntityRelations.empty.addRelatedByKey "t" [1] .Error (some "n")).addRelatedByKey
        "t" [1] .Cascade (some "n") =
      ⟨[("t", [⟨[1], .Error, some "n"⟩, ⟨[1], .Cascade, some "n"⟩])]⟩ :=
  rfl

/-- Claim C6 as amended: within a relation descriptor, edge identity is the
full triple (peer_key, policy, name): re-adding an edge identical in all
three components leaves the descriptor unchanged, while adding an edge that
differs in any component (in particular, same key and name but different
policy) appends a new entry at the end of the bucket and does not overwrite
the previously stored policy. -/
theorem add_related_identity_triple (er : EntityRelations) (t : String) (k : Bytes)
    (b : DeletionBehaviour) (n : Option String) (v : List RelationDescriptor)
    (h : alistGet er.related_entities t = some v) :
    ((⟨k, b, n⟩ : RelationDescriptor) ∈ v → er.addRelatedByKey t k b n = er) ∧
    ((⟨k, b, n⟩ : RelationDescriptor) ∉ v →
      er.addRelatedByKey t k b n =
        ⟨alistSet er.related_entities t (v ++ [⟨k, b, n⟩])⟩) := by
  constructor
  · intro hm
    simp [EntityRelations.addRelatedByKey, h, hm]
  · intro hm
    simp [EntityRelations.addRelatedByKey, h, hm]

/-- Witness for `add_related_identity_triple`: a re-add of the identical
triple is a no-op, and a re-add differing only in policy appends. -/
theorem add_related_identity_triple_witness :
    ((⟨[("t", [⟨[1], .Error, some "n"⟩])]⟩ : EntityRelations).addRelatedByKey
        "t" [1] .Error (some "n") = ⟨[("t", [⟨[1], .Error, some "n"⟩])]⟩) ∧
    ((⟨[("t", [⟨[1], .Error, some "n"⟩])]⟩ : EntityRelations).addRelatedByKey
        "t" [1] .Cascade (some "n") =
      ⟨alistSet [("t", [⟨[1], .Error, some "n"⟩])] "t"
        ([⟨[1], .Error, some "n"⟩] ++ [⟨[1], .Cascade, some "n"⟩])⟩) :=
  ⟨(add_related_identity_triple ⟨[("t", [⟨[1], .Error, some "n"⟩])]⟩ "t" [1] .Error
      (some "n") [⟨[1], .Error, some "n"⟩] rfl).1 (by decide),
   (add_related_identity_triple ⟨[("t", [⟨[1], .Error, some "n"⟩])]⟩ "t" [1] .Cascade
      (some "n") [⟨[1], .Error, some "n"⟩] rfl).2 (by decide)⟩

theorem bytesLe_append_left (p a b : Bytes) : bytesLe (p ++ a) (p ++ b) = bytesLe a b := by
  induction p with
  | nil => rfl
  | cons x xs ih => simp [bytesLe, ih]

theorem recordsTree_recInsert_same (db : DB) (tree : String) (key : Bytes) (v : Nat) :
    recordsTree (recInsert db tree key v) tree = alistSet (recordsTree db tree) key v := by
  simp [recordsTree, recInsert, alistGet_alistSet_same]

/-- A child keyspace holding keys ("a", 5) and ("b", 0): the byte-wise last
key is ("b", 0) with u32 tail 0, while the maximum u32 tail is 5. -/
def dbTails : DB := ⟨[("ct", [([97, 0, 0, 0, 5], 0), ([98, 0, 0, 0, 0], 0)])], [], []⟩

/-- Modelled from the claim's words, for comparison with the source: the
maximum u32 tail existing in the child keyspace plus one, or 0 when empty. -/
def claimedNextTail (db : DB) (ct : String) : Nat :=
  match (recordsTree db ct).map (fun p => u32FromBe (lastFour p.1)) with
  | [] => 0
  | l => l.foldl Nat.max 0 + 1

/-- Claim C8 counterexample: save_child (src/entity.rs:679) derives the tail
from the last key of the whole child keyspace in byte order, not from the
maximum u32 tail.  On `dbTails` the byte-wise last key is ("b", 0), so a
save_child under parent "c" gets tail 0 + 1 = 1, while the claimed rule
(maximum existing tail 5, plus one) predicts 6. -/
theorem save_child_ignores_max_tail :
    (saveChild dbTails "ct" [99] 7).2 = [99] ++ be32 1 ∧
    claimedNextTail dbTails "ct" = 6 ∧
    [99] ++ be32 1 ≠ [99] ++ be32 (claimedNextTail dbTails "ct") :=
  ⟨rfl, rfl, by decide⟩

/-- Claim C8 as amended: save_child sets the child's key to (parent_key, t)
where the u32 tail t is read from the last four bytes of the byte-wise
greatest key in the child keyspace, plus one, or 0 when the keyspace is
empty (this coincides with the maximum tail only when the greatest key also
carries the greatest tail).  In particular two save_child calls on an empty
child store yield keys (p, 0) then (p, 1), and get_children(p) returns them
in that order. -/
theorem save_child_last_key_tail (db : DB) (ct : String) (pk : Bytes) (v1 v2 : Nat)
    (h : recordsTree db ct = []) :
    (saveChild db ct pk v1).2 = pk ++ be32 0 ∧
    (saveChild (saveChild db ct pk v1).1 ct pk v2).2 = pk ++ be32 1 ∧
    scanPrefixKeys (saveChild (saveChild db ct pk v1).1 ct pk v2).1 ct pk =
      [pk ++ be32 0, pk ++ be32 1] := by
  have hbe0 : be32 0 = [0, 0, 0, 0] := rfl
  have hbe1 : be32 1 = [0, 0, 0, 1] := rfl
  have hsc1 : saveChild db ct pk v1 =
      (recInsert db ct (pk ++ [0, 0, 0, 0]) v1, pk ++ [0, 0, 0, 0]) := by
    simp [saveChild, h, treeLast, hbe0]
  have hd1 : recordsTree (recInsert db ct (pk ++ [0, 0, 0, 0]) v1) ct =
      [(pk ++ [0, 0, 0, 0], v1)] := by
    rw [recordsTree_recInsert_same, h]
    rfl
  have hlf : lastFour (pk ++ [0, 0, 0, 0]) = [0, 0, 0, 0] := by
    have hl : (pk ++ [0, 0, 0, 0]).length - 4 = pk.length := by simp
    rw [lastFour, hl]
    exact List.drop_left pk [0, 0, 0, 0]
  have hsc2 : saveChild (recInsert db ct (pk ++ [0, 0, 0, 0]) v1) ct pk v2 =
      (recInsert (recInsert db ct (pk ++ [0, 0, 0, 0]) v1) ct (pk ++ [0, 0, 0, 1]) v2,
        pk ++ [0, 0, 0, 1]) := by
    simp [saveChild, hd1, treeLast, hlf, u32FromBe, hbe1]
  have hne : pk ++ [0, 0, 0, 0] ≠ pk ++ [0, 0, 0, 1] := by
    intro hcontra
    have := List.append_cancel_left hcontra
    simp at this
  have hd2 : recordsTree (recInsert (recInsert db ct (pk ++ [0, 0, 0, 0]) v1) ct
      (pk ++ [0, 0, 0, 1]) v2) ct =
      [(pk ++ [0, 0, 0, 0], v1), (pk ++ [0, 0, 0, 1], v2)] := by
    rw [recordsTree_recInsert_same, hd1]
    simp [alistSet, hne]
  have hp0 : pk.isPrefixOf (pk ++ [0, 0, 0, 0]) = true := by
    rw [List.isPrefixOf_iff_prefix]; exact pk.prefix_append _
  have hp1 : pk.isPrefixOf (pk ++ [0, 0, 0, 1]) = true := by
    rw [List.isPrefixOf_iff_prefix]; exact pk.prefix_append _
  have hle : bytesLe (pk ++ [0, 0, 0, 0]) (pk ++ [0, 0, 0, 1]) = true := by
    rw [bytesLe_append_left]; rfl
  refine ⟨by rw [hsc1, hbe0], ?_, ?_⟩
  · rw [hsc1]
    show (saveChild (recInsert db ct (pk ++ [0, 0, 0, 0]) v1) ct pk v2).2 = pk ++ be32 1
    rw [hsc2, hbe1]
  · rw [hsc1]
    show scanPrefixKeys (saveChild (recInsert db ct (pk ++ [0, 0, 0, 0]) v1) ct pk v2).1
        ct pk = [pk ++ be32 0, pk ++ be32 1]
    rw [hsc2, hbe0, hbe1]
    show scanPrefixKeys (recInsert (recInsert db ct (pk ++ [0, 0, 0, 0]) v1) ct
        (pk ++ [0, 0, 0, 1]) v2) ct pk = [pk ++ [0, 0, 0, 0], pk ++ [0, 0, 0, 1]]
    simp [scanPrefixKeys, hd2, hp0, hp1, insertKeySorted, hle]

/-- Witness for `save_child_last_key_tail` on the empty store. -/
theorem save_child_last_key_tail_witness :
    (saveChild ⟨[], [], []⟩ "ct" [7] 1).2 = [7] ++ be32 0 ∧
    (saveChild (saveChild ⟨[], [], []⟩ "ct" [7] 1).1 "ct" [7] 2).2 = [7] ++ be32 1 ∧
    scanPrefixKeys (saveChild (saveChild ⟨[], [], []⟩ "ct" [7] 1).1 "ct" [7] 2).1 "ct" [7] =
      [[7] ++ be32 0, [7] ++ be32 1] :=
  save_child_last_key_tail ⟨[], [], []⟩ "ct" [7] 1 2 rfl

/-- A cyclic all-Cascade free-relation chain a -> b -> c -> a over the trees
"ta", "tb", "tc" (keys [1], [2], [3]), with the BreakLink mirror edges that
Relation::create installs for the reverse directions, all three types
registered, and one extra record [9] in "ta" to witness that nothing else is
removed. -/
def dbCycle : DB :=
  ⟨[("ta", [([1], 0), ([9], 0)]), ("tb", [([2], 0)]), ("tc", [([3], 0)])],
   [("ta", [([1], ⟨[("tb", [⟨[2], .Cascade, none⟩]), ("tc", [⟨[3], .BreakLink, none⟩])]⟩)]),
    ("tb", [([2], ⟨[("ta", [⟨[1], .BreakLink, none⟩]), ("tc", [⟨[3], .Cascade, none⟩])]⟩)]),
    ("tc", [([3], ⟨[("tb", [⟨[2], .BreakLink, none⟩]), ("ta", [⟨[1], .Cascade, none⟩])]⟩)])],
   [("ta", ⟨"ta", [], []⟩), ("tb", ⟨"tb", [], []⟩), ("tc", ⟨"tc", [], []⟩)]⟩

/-- The plan computed for remove("ta", [1]) on `dbCycle`: each of the three
cycle members appears exactly once (the recursion into a's own node hits the
visited list and stops). -/
def planCycle : EntityRelations :=
  ⟨[("ta", [⟨[1], .Cascade, none⟩]), ("tc", [⟨[3], .Cascade, none⟩]),
    ("tb", [⟨[2], .Cascade, none⟩])]⟩

/-- The store produced by remove("ta", [1]) on `dbCycle`. -/
def dbCycleAfter : DB :=
  ⟨[("ta", [([9], 0)]), ("tb", []), ("tc", [])],
   [("ta", []),
    ("tb", [([2], ⟨[("ta", []), ("tc", [⟨[3], .Cascade, none⟩])]⟩)]),
    ("tc", [([3], ⟨[("tb", [⟨[2], .BreakLink, none⟩]), ("ta", [])]⟩)])],
   [("ta", ⟨"ta", [], []⟩), ("tb", ⟨"tb", [], []⟩), ("tc", ⟨"tc", [], []⟩)]⟩

/-- Claim C4: on the cyclic all-Cascade chain a -> b -> c -> a, remove(a)
terminates and removes exactly the records of a, b and c, each once.  The
statement holds at every fuel of at least 4, so the recursion is finished
after the one pass that the visited list allows: the plan lists each cycle
member exactly once, the three records are gone, and the unrelated record
[9] survives. -/
theorem remove_cycle_cascade_exact (n : Nat) :
    canBeDeleted (n + 4) "ta" [1] [] EntityRelations.empty dbCycle = .ok planCycle ∧
    removeFromU8Array (n + 4) "ta" [1] dbCycle = .ok dbCycleAfter ∧
    recLookup dbCycleAfter "ta" [1] = none ∧
    recLookup dbCycleAfter "tb" [2] = none ∧
    recLookup dbCycleAfter "tc" [3] = none ∧
    recLookup dbCycleAfter "ta" [9] = some 0 := by
  refine ⟨?_, ?_, rfl, rfl, rfl, rfl⟩
  · simp [canBeDeleted, checkFreeBuckets, checkFreeEdges, checkSiblings, checkChildren,
      checkChildKeys, getDescriptorWithKeyAndTreeName, relsLookup, relsTree, alistGet,
      famLookup, EntityRelations.addRelatedByKey, EntityRelations.empty, dbCycle,
      planCycle, alistSet]
  · simp [removeFromU8Array, preRemove, canBeDeleted, checkFreeBuckets, checkFreeEdges,
      checkSiblings, checkChildren, checkChildKeys, getDescriptorWithKeyAndTreeName,
      relsLookup, relsTree, alistGet, famLookup, EntityRelations.addRelatedByKey,
      EntityRelations.empty, dbCycle, dbCycleAfter, alistSet, recRemove, recordsTree,
      alistRemove, removeEntityEntry, removeLinkWithKeysAndTreeNames, relsSave,
      relsRemove, EntityRelations.removeRelatedByKeyAndTreeName, toAsciiLowercase,
      asciiLowerByte]

theorem checkFreeEdges_all_breaklink
    (recurse : String → Bytes → List (String × Bytes) → EntityRelations →
      Except StoreError EntityRelations)
    (t : String) (k : Bytes) (c : List (String × Bytes)) (tn : String)
    (es : List RelationDescriptor) (r : EntityRelations)
    (h : ∀ rd ∈ es, rd.deletion_behaviour = .BreakLink) :
    checkFreeEdges recurse t k c tn es r = .ok r := by
  induction es with
  | nil => rfl
  | cons rd rest ih =>
      have hb := h rd (List.mem_cons_self rd rest)
      simp [checkFreeEdges, hb]
      exact ih (fun x hx => h x (List.mem_cons_of_mem rd hx))

theorem checkFreeEdges_first_error
    (recurse : String → Bytes → List (String × Bytes) → EntityRelations →
      Except StoreError EntityRelations)
    (t : String) (k : Bytes) (tn : String) (es : List RelationDescriptor) :
    ∀ (r : EntityRelations), (∃ rd ∈ es, rd.deletion_behaviour = .Error) →
    (∀ rd ∈ es, rd.deletion_behaviour ≠ .Cascade) →
    checkFreeEdges recurse t k [] tn es r =
      .error ⟨.IntegrityError, "Constrained related entity exists in " ++ tn⟩ := by
  induction es with
  | nil => intro r hex _; simp at hex
  | cons rd rest ih =>
      intro r hex hnc
      cases hb : rd.deletion_behaviour with
      | Error => simp [checkFreeEdges, hb]
      | BreakLink =>
          simp [checkFreeEdges, hb]
          refine ih r ?_ (fun x hx => hnc x (List.mem_cons_of_mem rd hx))
          obtain ⟨x, hx, he⟩ := hex
          rcases List.mem_cons.mp hx with h1 | h2
          · subst h1; rw [hb] at he; cases he
          · exact ⟨x, h2, he⟩
      | Cascade => exact absurd hb (hnc rd (List.mem_cons_self rd rest))

theorem checkFreeBuckets_first_error
    (recurse : String → Bytes → List (String × Bytes) → EntityRelations →
      Except StoreError EntityRelations)
    (t : String) (k : Bytes) (ta : String)
    (buckets : List (String × List RelationDescriptor)) :
    ∀ (r : EntityRelations),
    (∃ es, alistGet buckets ta = some es ∧ ∃ rd ∈ es, rd.deletion_behaviour = .Error) →
    (∀ p ∈ buckets, ∀ rd ∈ p.2, rd.deletion_behaviour = .Error → p.1 = ta) →
    (∀ p ∈ buckets, ∀ rd ∈ p.2, rd.deletion_behaviour ≠ .Cascade) →
    checkFreeBuckets recurse t k [] buckets r =
      .error ⟨.IntegrityError, "Constrained related entity exists in " ++ ta⟩ := by
  induction buckets with
  | nil =>
      intro r hget _ _
      obtain ⟨es, hes, _⟩ := hget
      simp [alistGet] at hes
  | cons p rest ih =>
      intro r hget hall hnc
      obtain ⟨tn0, es0⟩ := p
      by_cases he : ∃ rd ∈ es0, rd.deletion_behaviour = .Error
      · have hta : tn0 = ta := by
          obtain ⟨rd, hm, hrd⟩ := he
          exact hall (tn0, es0) (List.mem_cons_self _ _) rd hm hrd
        subst hta
        rw [checkFreeBuckets,
          checkFreeEdges_first_error recurse t k tn0 es0 r he
            (fun rd hm => hnc (tn0, es0) (List.mem_cons_self _ _) rd hm)]
      · have hbl : ∀ rd ∈ es0, rd.deletion_behaviour = .BreakLink := by
          intro rd hm
          cases hb : rd.deletion_behaviour with
          | Error => exact absurd ⟨rd, hm, hb⟩ he
          | Cascade => exact absurd hb (hnc (tn0, es0) (List.mem_cons_self _ _) rd hm)
          | BreakLink => rfl
        rw [checkFreeBuckets, checkFreeEdges_all_breaklink recurse t k [] tn0 es0 r hbl]
        refine ih r ?_ (fun q hq => hall q (List.mem_cons_of_mem _ hq))
          (fun q hq => hnc q (List.mem_cons_of_mem _ hq))
        obtain ⟨es, hes, hrd⟩ := hget
        by_cases htn : tn0 = ta
        · subst htn
          simp [alistGet] at hes
          subst hes
          exact absurd hrd he
        · exact ⟨es, by simpa [alistGet, htn] using hes, hrd⟩

/-- Claim C3: when b's relation descriptor carries an inbound Error mirror
edge from a record of tree `ta` (and its other edges are all BreakLink, so
that this constraint is the one the planner meets; at top level nothing is
scheduled for removal yet, matching the claim's side condition), remove(b)
fails with an Integrity error naming `ta`.  The planner raises the error as
a pure read — in this embedding every write is delivered through the `.ok`
constructor of the result, mirroring pre_remove (src/entity.rs:453), which
performs its first write only after can_be_deleted succeeds — so the
`.error` result leaves the store byte-identical to before the call. -/
theorem remove_inbound_error_edge_fails (fuel : Nat) (db : DB) (tb : String) (kb : Bytes)
    (ta : String)
    (hget : ∃ es, alistGet (getDescriptorWithKeyAndTreeName db tb kb).related_entities ta =
        some es ∧ ∃ rd ∈ es, rd.deletion_behaviour = .Error)
    (hall : ∀ p ∈ (getDescriptorWithKeyAndTreeName db tb kb).related_entities,
        ∀ rd ∈ p.2, rd.deletion_behaviour = .Error → p.1 = ta)
    (hnc : ∀ p ∈ (getDescriptorWithKeyAndTreeName db tb kb).related_entities,
        ∀ rd ∈ p.2, rd.deletion_behaviour ≠ .Cascade) :
    removeFromU8Array (fuel + 1) tb kb db =
      .error ⟨.IntegrityError, "Constrained related entity exists in " ++ ta⟩ := by
  have hcb := checkFreeBuckets_first_error (fun t k c r => canBeDeleted fuel t k c r db)
    tb kb ta (getDescriptorWithKeyAndTreeName db tb kb).related_entities
    EntityRelations.empty hget hall hnc
  unfold removeFromU8Array preRemove
  rw [canBeDeleted]
  simp [hcb]

/-- The S4-style store for the C3 witness: a = ("ta", [1]) related to
b = ("tb", [2]) with the Error policy stored on b's side. -/
def dbInboundErr : DB :=
  ⟨[("ta", [([1], 0)]), ("tb", [([2], 0)])],
   [("tb", [([2], ⟨[("ta", [⟨[1], .Error, none⟩])]⟩)])],
   [("ta", ⟨"ta", [], []⟩), ("tb", ⟨"tb", [], []⟩)]⟩

/-- Witness for `remove_inbound_error_edge_fails` on `dbInboundErr`. -/
theorem remove_inbound_error_edge_fails_witness :
    removeFromU8Array (0 + 1) "tb" [2] dbInboundErr =
      .error ⟨.IntegrityError, "Constrained related entity exists in " ++ "ta"⟩ :=
  remove_inbound_error_edge_fails 0 dbInboundErr "tb" [2] "ta"
    ⟨[⟨[1], .Error, none⟩], rfl, ⟨[1], .Error, none⟩, by decide, rfl⟩
    (by decide) (by decide)

/-- A record [1] of unregistered tree "tu" (no family descriptor) whose
relation descriptor carries an Error edge into "tv". -/
def dbUnreg : DB :=
  ⟨[("tu", [([1], 0)])],
   [("tu", [([1], ⟨[("tv", [⟨[4], .Error, none⟩])]⟩)])],
   []⟩

/-- Claim C5 counterexample: for a record of an unregistered type carrying an
Error free edge, remove fails with IntegrityError, not UnregisteredEntity.
can_be_deleted (src/relation/mod.rs:98-143) loads the family descriptor
early but tests it for absence only after the free-edge loop, so the
fatal-unregistered report is not raised before the node's free edges are
processed, contrary to the claim. -/
theorem unregistered_error_edge_integrity :
    famLookup dbUnreg "tu" = none ∧
    removeFromU8Array 3 "tu" [1] dbUnreg =
      .error ⟨.IntegrityError, "Constrained related entity exists in tv"⟩ :=
  ⟨rfl, rfl⟩

/-- Claim C5 as amended: for every record of a type whose family descriptor
is absent, remove fails; the planner loads the family descriptor in step 2
but only checks it for absence after processing the node's free edges, so
the failure is UnregisteredEntity exactly when the free-edge pass itself
raises no error (with an Error free edge the failure is an IntegrityError
instead). -/
theorem remove_unregistered_fails (fuel : Nat) (tree : String) (key : Bytes) (db : DB)
    (h : famLookup db tree = none) :
    (∃ e, removeFromU8Array (fuel + 1) tree key db = .error e) ∧
    (∀ r, checkFreeBuckets (fun t k c rr => canBeDeleted fuel t k c rr db) tree key []
        (getDescriptorWithKeyAndTreeName db tree key).related_entities
        EntityRelations.empty = .ok r →
      removeFromU8Array (fuel + 1) tree key db =
        .error ⟨.UnregisteredEntity, "Trying to use unregistered entity " ++ tree⟩) := by
  cases hcb : checkFreeBuckets (fun t k c rr => canBeDeleted fuel t k c rr db) tree key []
      (getDescriptorWithKeyAndTreeName db tree key).related_entities
      EntityRelations.empty with
  | error e =>
      constructor
      · exact ⟨e, by simp [removeFromU8Array, preRemove, canBeDeleted, hcb]⟩
      · intro r hr; cases hr
  | ok r1 =>
      constructor
      · exact ⟨⟨.UnregisteredEntity, "Trying to use unregistered entity " ++ tree⟩,
          by simp [removeFromU8Array, preRemove, canBeDeleted, hcb, h]⟩
      · intro r hr
        simp [removeFromU8Array, preRemove, canBeDeleted, hcb, h]

/-- An unregistered record with no free edges at all. -/
def dbUnregPlain : DB := ⟨[("tu", [([1], 0)])], [], []⟩

/-- Witness for `remove_unregistered_fails` on `dbUnregPlain`. -/
theorem remove_unregistered_fails_witness :
    famLookup dbUnregPlain "tu" = none ∧
    removeFromU8Array (2 + 1) "tu" [1] dbUnregPlain =
      .error ⟨.UnregisteredEntity, "Trying to use unregistered entity " ++ "tu"⟩ :=
  ⟨rfl, (remove_unregistered_fails 2 "tu" [1] dbUnregPlain rfl).2 EntityRelations.empty rfl⟩

/-- Claim C9: whenever the relation descriptor of an entity contains at least
one edge into the target tree whose name equals the requested one,
get_one_with_name (src/relation/mod.rs:276) returns the record stored under
the key at index 0 of that tree's peer list — the first peer in insertion
order — regardless of which edge actually matched the name; the matched
edge's own peer key is never consulted for the returned value. -/
theorem get_one_with_name_first_peer (db : DB) (t1 : String) (k1 : Bytes) (t2 : String)
    (name : String) (l : List RelationDescriptor) (rd0 : RelationDescriptor) (v : Nat)
    (hb : alistGet (getDescriptorWithKeyAndTreeName db t1 k1).related_entities t2 = some l)
    (hm : ∃ rd ∈ l, rd.name = some name)
    (h0 : l.head? = some rd0)
    (hv : recLookup db t2 rd0.key = some v) :
    getOneWithName db t1 k1 t2 name = some v := by
  have hfind : ∃ y, l.find?
      (fun rd => match rd.name with | some n => n == name | none => false) = some y := by
    rw [← Option.isSome_iff_exists, List.find?_isSome]
    obtain ⟨rd, hmem, hn⟩ := hm
    exact ⟨rd, hmem, by rw [hn]; simp⟩
  obtain ⟨y, hy⟩ := hfind
  simp [getOneWithName, hb, hy, h0, hv]

/-- The S7-style store for the C9 witness: edges named "x" (to key [5],
record 11) and "r" (to key [6], record 22), in that insertion order. -/
def dbNamed : DB :=
  ⟨[("e2", [([1], 0)]), ("e3", [([5], 11), ([6], 22)])],
   [("e2", [([1], ⟨[("e3", [⟨[5], .BreakLink, some "x"⟩, ⟨[6], .BreakLink, some "r"⟩])]⟩)])],
   []⟩

/-- Witness for `get_one_with_name_first_peer`: the query for name "r"
matches the second edge but returns the record of the first peer [5]. -/
theorem get_one_with_name_first_peer_witness :
    getOneWithName dbNamed "e2" [1] "e3" "r" = some 11 :=
  get_one_with_name_first_peer dbNamed "e2" [1] "e3" "r"
    [⟨[5], .BreakLink, some "x"⟩, ⟨[6], .BreakLink, some "r"⟩]
    ⟨[5], .BreakLink, some "x"⟩ 11 rfl
    ⟨⟨[6], .BreakLink, some "r"⟩, by decide, rfl⟩ rfl rfl

/-- Claim C10: remove_relation removes from a's descriptor exactly those
edges into b's tree whose peer key equals b's key after ASCII-lowercasing
each byte of both (src/relation/descriptor.rs:77), so edges to peers whose
keys differ from b's only in ASCII letter case are removed too, and the
edge's name plays no role in the selection. -/
theorem remove_relation_case_insensitive (db : DB) (t1 : String) (k1 : Bytes)
    (t2 : String) (k2 : Bytes) (hne : ¬(t1 = t2 ∧ k1 = k2)) :
    alistGet (getDescriptorWithKeyAndTreeName
        (removeRelationByKeys db t1 k1 t2 k2) t1 k1).related_entities t2 =
      (alistGet (getDescriptorWithKeyAndTreeName db t1 k1).related_entities t2).map
        (List.filter (fun rd => toAsciiLowercase rd.key != toAsciiLowercase k2)) := by
  have hlook : relsLookup (removeRelationByKeys db t1 k1 t2 k2) t1 k1 =
      some ((getDescriptorWithKeyAndTreeName db t1 k1).removeRelatedByKeyAndTreeName t2 k2) := by
    unfold removeRelationByKeys removeLinkWithKeysAndTreeNames
    rw [relsLookup_relsSave_ne _ _ _ _ _ _ hne, relsLookup_relsSave_same]
  rw [show getDescriptorWithKeyAndTreeName (removeRelationByKeys db t1 k1 t2 k2) t1 k1 =
      (relsLookup (removeRelationByKeys db t1 k1 t2 k2) t1 k1).getD EntityRelations.empty
      from rfl, hlook]
  cases halist : alistGet (getDescriptorWithKeyAndTreeName db t1 k1).related_entities t2 with
  | some v =>
      simp [EntityRelations.removeRelatedByKeyAndTreeName, halist, alistGet_alistSet_same]
  | none =>
      simp [EntityRelations.removeRelatedByKeyAndTreeName, halist]

/-- A descriptor with peers [65] ("A"), [97] ("a") and [98] ("b") in tree "y",
with differing names and policies, for the C10 witness. -/
def dbCase : DB :=
  ⟨[("x", [([1], 0)]), ("y", [([97], 0)])],
   [("x", [([1], ⟨[("y", [⟨[65], .BreakLink, some "p"⟩, ⟨[97], .Cascade, none⟩,
                           ⟨[98], .Error, some "q"⟩])]⟩)])],
   []⟩

/-- Witness for `remove_relation_case_insensitive`: removing the relation to
key [97] ("a") also removes the edge to [65] ("A"), whatever its name, and
keeps only the edge to [98] ("b"). -/
theorem remove_relation_case_insensitive_witness :
    alistGet (getDescriptorWithKeyAndTreeName
        (removeRelationByKeys dbCase "x" [1] "y" [97]) "x" [1]).related_entities "y" =
      some [⟨[98], .Error, some "q"⟩] := by
  have h := remove_relation_case_insensitive dbCase "x" [1] "y" [97] (by decide)
  rw [h]
  rfl

/-- Claim C7: mirror-edge symmetry as an operational invariant.  Starting
from a store where neither endpoint has a relation descriptor (and the two
endpoints are distinct records with existing entries), create_relation
(src/relation/mod.rs:14) installs the edge in both directions, each with its
caller-supplied policy and the shared name, get_related sees the peer from
both sides, and remove_relation (src/relation/mod.rs:28) removes both
directions, leaving both descriptors with no edges so both get_related
results are empty again. -/
theorem create_remove_relation_roundtrip (db : DB) (t1 : String) (k1 : Bytes)
    (t2 : String) (k2 : Bytes) (p1 p2 : DeletionBehaviour) (name : Option String)
    (va vb : Nat)
    (h1 : relsLookup db t1 k1 = none) (h2 : relsLookup db t2 k2 = none)
    (hne : ¬(t1 = t2 ∧ k1 = k2))
    (hra : recLookup db t1 k1 = some va) (hrb : recLookup db t2 k2 = some vb) :
    alistGet (getDescriptorWithKeyAndTreeName
        (createRelation db t1 k1 t2 k2 p1 p2 name) t1 k1).related_entities t2 =
      some [⟨k2, p1, name⟩] ∧
    alistGet (getDescriptorWithKeyAndTreeName
        (createRelation db t1 k1 t2 k2 p1 p2 name) t2 k2).related_entities t1 =
      some [⟨k1, p2, name⟩] ∧
    getRelatedKeys (createRelation db t1 k1 t2 k2 p1 p2 name) t1 k1 t2 = [k2] ∧
    getRelatedKeys (createRelation db t1 k1 t2 k2 p1 p2 name) t2 k2 t1 = [k1] ∧
    alistGet (getDescriptorWithKeyAndTreeName
        (removeRelationByKeys (createRelation db t1 k1 t2 k2 p1 p2 name) t1 k1 t2 k2)
        t1 k1).related_entities t2 = some [] ∧
    alistGet (getDescriptorWithKeyAndTreeName
        (removeRelationByKeys (createRelation db t1 k1 t2 k2 p1 p2 name) t1 k1 t2 k2)
        t2 k2).related_entities t1 = some [] ∧
    getRelatedKeys (removeRelationByKeys (createRelation db t1 k1 t2 k2 p1 p2 name)
        t1 k1 t2 k2) t1 k1 t2 = [] ∧
    getRelatedKeys (removeRelationByKeys (createRelation db t1 k1 t2 k2 p1 p2 name)
        t1 k1 t2 k2) t2 k2 t1 = [] := by
  have hne' : ¬(t2 = t1 ∧ k2 = k1) := fun hc => hne ⟨hc.1.symm, hc.2.symm⟩
  have hcl1 : createLink db t1 k1 t2 k2 p1 name =
      relsSave db t1 k1 ⟨[(t2, [⟨k2, p1, name⟩])]⟩ := by
    simp [createLink, getDescriptorWithKeyAndTreeName, h1,
      EntityRelations.addRelatedByKey, EntityRelations.empty, alistGet]
  have hl2 : relsLookup (relsSave db t1 k1 ⟨[(t2, [⟨k2, p1, name⟩])]⟩) t2 k2 = none := by
    rw [relsLookup_relsSave_ne _ _ _ _ _ _ hne', h2]
  have hcr : createRelation db t1 k1 t2 k2 p1 p2 name =
      relsSave (relsSave db t1 k1 ⟨[(t2, [⟨k2, p1, name⟩])]⟩) t2 k2
        ⟨[(t1, [⟨k1, p2, name⟩])]⟩ := by
    unfold createRelation
    rw [hcl1]
    simp [createLink, getDescriptorWithKeyAndTreeName, hl2,
      EntityRelations.addRelatedByKey, EntityRelations.empty, alistGet]
  have hla : relsLookup (createRelation db t1 k1 t2 k2 p1 p2 name) t1 k1 =
      some ⟨[(t2, [⟨k2, p1, name⟩])]⟩ := by
    rw [hcr, relsLookup_relsSave_ne _ _ _ _ _ _ hne, relsLookup_relsSave_same]
  have hlb : relsLookup (createRelation db t1 k1 t2 k2 p1 p2 name) t2 k2 =
      some ⟨[(t1, [⟨k1, p2, name⟩])]⟩ := by
    rw [hcr, relsLookup_relsSave_same]
  have hdesc_a : getDescriptorWithKeyAndTreeName
      (createRelation db t1 k1 t2 k2 p1 p2 name) t1 k1 = ⟨[(t2, [⟨k2, p1, name⟩])]⟩ := by
    simp [getDescriptorWithKeyAndTreeName, hla]
  have hdesc_b : getDescriptorWithKeyAndTreeName
      (createRelation db t1 k1 t2 k2 p1 p2 name) t2 k2 = ⟨[(t1, [⟨k1, p2, name⟩])]⟩ := by
    simp [getDescriptorWithKeyAndTreeName, hlb]
  have hrb2 : recLookup (createRelation db t1 k1 t2 k2 p1 p2 name) t2 k2 = some vb := by
    rw [hcr]; exact hrb
  have hra2 : recLookup (createRelation db t1 k1 t2 k2 p1 p2 name) t1 k1 = some va := by
    rw [hcr]; exact hra
  have hca : getRelatedKeys (createRelation db t1 k1 t2 k2 p1 p2 name) t1 k1 t2 = [k2] := by
    simp [getRelatedKeys, hdesc_a, alistGet, hrb2]
  have hcb : getRelatedKeys (createRelation db t1 k1 t2 k2 p1 p2 name) t2 k2 t1 = [k1] := by
    simp [getRelatedKeys, hdesc_b, alistGet, hra2]
  have hrm1 : removeLinkWithKeysAndTreeNames (createRelation db t1 k1 t2 k2 p1 p2 name)
      t1 k1 t2 k2 =
      relsSave (createRelation db t1 k1 t2 k2 p1 p2 name) t1 k1
        ⟨[(t2, ([] : List RelationDescriptor))]⟩ := by
    unfold removeLinkWithKeysAndTreeNames
    rw [hdesc_a]
    simp [EntityRelations.removeRelatedByKeyAndTreeName, alistGet, alistSet]
  have hlb3 : relsLookup (relsSave (createRelation db t1 k1 t2 k2 p1 p2 name) t1 k1
      ⟨[(t2, ([] : List RelationDescriptor))]⟩) t2 k2 =
      some ⟨[(t1, [⟨k1, p2, name⟩])]⟩ := by
    rw [relsLookup_relsSave_ne _ _ _ _ _ _ hne', hlb]
  have hrm2 : removeRelationByKeys (createRelation db t1 k1 t2 k2 p1 p2 name) t1 k1 t2 k2 =
      relsSave (relsSave (createRelation db t1 k1 t2 k2 p1 p2 name) t1 k1
          ⟨[(t2, ([] : List RelationDescriptor))]⟩) t2 k2
        ⟨[(t1, ([] : List RelationDescriptor))]⟩ := by
    show removeLinkWithKeysAndTreeNames (removeLinkWithKeysAndTreeNames
        (createRelation db t1 k1 t2 k2 p1 p2 name) t1 k1 t2 k2) t2 k2 t1 k1 = _
    rw [hrm1]
    simp only [removeLinkWithKeysAndTreeNames]
    rw [show getDescriptorWithKeyAndTreeName (relsSave
        (createRelation db t1 k1 t2 k2 p1 p2 name) t1 k1
        ⟨[(t2, ([] : List RelationDescriptor))]⟩) t2 k2 =
        (relsLookup (relsSave (createRelation db t1 k1 t2 k2 p1 p2 name) t1 k1
          ⟨[(t2, ([] : List RelationDescriptor))]⟩) t2 k2).getD EntityRelations.empty
        from rfl, hlb3]
    simp [EntityRelations.removeRelatedByKeyAndTreeName, alistGet, alistSet]
  have hfa : relsLookup (removeRelationByKeys (createRelation db t1 k1 t2 k2 p1 p2 name)
      t1 k1 t2 k2) t1 k1 = some ⟨[(t2, ([] : List RelationDescriptor))]⟩ := by
    rw [hrm2, relsLookup_relsSave_ne _ _ _ _ _ _ hne, relsLookup_relsSave_same]
  have hfb : relsLookup (removeRelationByKeys (createRelation db t1 k1 t2 k2 p1 p2 name)
      t1 k1 t2 k2) t2 k2 = some ⟨[(t1, ([] : List RelationDescriptor))]⟩ := by
    rw [hrm2, relsLookup_relsSave_same]
  have hdesc_fa : getDescriptorWithKeyAndTreeName (removeRelationByKeys
      (createRelation db t1 k1 t2 k2 p1 p2 name) t1 k1 t2 k2) t1 k1 =
      ⟨[(t2, ([] : List RelationDescriptor))]⟩ := by
    simp [getDescriptorWithKeyAndTreeName, hfa]
  have hdesc_fb : getDescriptorWithKeyAndTreeName (removeRelationByKeys
      (createRelation db t1 k1 t2 k2 p1 p2 name) t1 k1 t2 k2) t2 k2 =
      ⟨[(t1, ([] : List RelationDescriptor))]⟩ := by
    simp [getDescriptorWithKeyAndTreeName, hfb]
  refine ⟨by rw [hdesc_a]; simp [alistGet], by rw [hdesc_b]; simp [alistGet],
    hca, hcb, by rw [hdesc_fa]; simp [alistGet], by rw [hdesc_fb]; simp [alistGet],
    ?_, ?_⟩
  · simp [getRelatedKeys, hdesc_fa, alistGet]
  · simp [getRelatedKeys, hdesc_fb, alistGet]

/-- Two fresh records for the C7 witness. -/
def dbFresh : DB := ⟨[("u", [([1], 5)]), ("w", [([2], 6)])], [], []⟩

/-- Witness for `create_remove_relation_roundtrip` on `dbFresh`. -/
theorem create_remove_relation_roundtrip_witness :
    alistGet (getDescriptorWithKeyAndTreeName
        (createRelation dbFresh "u" [1] "w" [2] .Cascade .Error (some "n"))
        "u" [1]).related_entities "w" = some [⟨[2], .Cascade, some "n"⟩] ∧
    alistGet (getDescriptorWithKeyAndTreeName
        (createRelation dbFresh "u" [1] "w" [2] .Cascade .Error (some "n"))
        "w" [2]).related_entities "u" = some [⟨[1], .Error, some "n"⟩] ∧
    getRelatedKeys (createRelation dbFresh "u" [1] "w" [2] .Cascade .Error (some "n"))
      "u" [1] "w" = [[2]] ∧
    getRelatedKeys (createRelation dbFresh "u" [1] "w" [2] .Cascade .Error (some "n"))
      "w" [2] "u" = [[1]] ∧
    alistGet (getDescriptorWithKeyAndTreeName
        (removeRelationByKeys (createRelation dbFresh "u" [1] "w" [2] .Cascade .Error
          (some "n")) "u" [1] "w" [2]) "u" [1]).related_entities "w" = some [] ∧
    alistGet (getDescriptorWithKeyAndTreeName
        (removeRelationByKeys (createRelation dbFresh "u" [1] "w" [2] .Cascade .Error
          (some "n")) "u" [1] "w" [2]) "w" [2]).related_entities "u" = some [] ∧
    getRelatedKeys (removeRelationByKeys (createRelation dbFresh "u" [1] "w" [2]
      .Cascade .Error (some "n")) "u" [1] "w" [2]) "u" [1] "w" = [] ∧
    getRelatedKeys (removeRelationByKeys (createRelation dbFresh "u" [1] "w" [2]
      .Cascade .Error (some "n")) "u" [1] "w" [2]) "w" [2] "u" = [] :=
  create_remove_relation_roundtrip dbFresh "u" [1] "w" [2] .Cascade .Error (some "n")
    5 6 rfl rfl (by decide) rfl rfl


end Reindeer
